import Mathlib

/-!
Verification development for the epiagent package-routing core.

The definitions below are a shallow embedding of the Python source:
* `src/epiagent/tools/router.py` — the relevance router (`find_relevant_packages`,
  `_compute_match_score`, `_normalize`, `TASK_KEYWORDS`);
* `src/epiagent/agent.py` — the planner / shortlist engine (`_tokenise`,
  `_score_overlap`, `EpiAgent.shortlist_packages`, `EpiAgent.plan`);
* `src/epiagent/tools/r_wrappers.py` — the execution adapter
  (`call_epiverse_function`, `list_epiverse_packages`, the registered fallbacks
  `_fallback_incidence` and `_fallback_clean_variable_names`,
  `_normalise_column_name`);
* `src/epiagent/tools/registry.py` — the catalogue data model (`EpiversePackage`,
  `sorted_packages`, `has_package`).

Python floats are modelled by exact numbers: the router's additive scores are
all multiples of 0.5 and are modelled in `ℚ`; the shortlist's cosine-like score
involves a square root and is modelled in `ℝ`.  Python `for` loops become folds
or structural recursion, dictionaries become association lists or count
functions, exceptions become `Except`, and the optional `rpy2` bridge becomes an
explicit `BridgeState` parameter.  The tabular values that cross the adapter
boundary are modelled by the closed `Value` type.
-/

namespace Epiagent

/-! ### Text utilities (router `_normalize`, agent `_tokenise`, Python `str.split` and `in`) -/

/-- Python `str.lower` (character-wise, as in CPython for the ASCII metadata
this system handles). -/
def lowerString (s : String) : String := String.mk (s.data.map Char.toLower)

/-- Python string comparison `a < b` (lexicographic on code points), written on
character lists. -/
def charsLt : List Char → List Char → Bool
  | [], [] => false
  | [], _ :: _ => true
  | _ :: _, [] => false
  | a :: as, b :: bs => if a < b then true else if a = b then charsLt as bs else false

/-- Python `a <= b` on strings, the comparator underlying `sorted`. -/
def strLe (a b : String) : Bool := !(charsLt b.data a.data)

/-- A character kept by the router's `_normalize`: the regex it deletes is
`[^a-z0-9\s]` applied after lower-casing, so lower-case letters, digits and
whitespace survive. -/
def isKeptChar (c : Char) : Bool := c.isLower || c.isDigit || c.isWhitespace

/-- `router._normalize`: lower-case, then strip every character that is not a
lower-case letter, a digit or whitespace. -/
def normalize (s : String) : String :=
  String.mk ((s.data.map Char.toLower).filter (fun c => isKeptChar c))

/-- Helper for `splitWs`: splits a character list on whitespace runs,
accumulating the current (reversed) word. -/
def splitWsAux : List Char → List Char → List String
  | [], cur => if cur = [] then [] else [String.mk cur.reverse]
  | c :: rest, cur =>
    if c.isWhitespace then
      if cur = [] then splitWsAux rest []
      else String.mk cur.reverse :: splitWsAux rest []
    else splitWsAux rest (c :: cur)

/-- Python `str.split()` with no argument: split on whitespace runs, dropping
empty pieces. -/
def splitWs (s : String) : List String := splitWsAux s.data []

/-- Python `needle in hay` on strings: contiguous-substring containment. -/
def isSubstrOf (needle hay : String) : Bool := decide (needle.data <:+: hay.data)

/-- A character matched by the agent tokeniser's regex `[A-Za-z0-9_]`. -/
def isWordChar (c : Char) : Bool := c.isAlphanum || c = '_'

/-- Helper for `tokenise`: maximal runs of word characters. -/
def tokeniseAux : List Char → List Char → List String
  | [], cur => if cur = [] then [] else [String.mk cur.reverse]
  | c :: rest, cur =>
    if isWordChar c then tokeniseAux rest (c :: cur)
    else if cur = [] then tokeniseAux rest []
    else String.mk cur.reverse :: tokeniseAux rest []

/-- `agent._tokenise`: `TOKEN_PATTERN.findall` (maximal `[A-Za-z0-9_]+` runs)
followed by lower-casing each token. -/
def tokenise (s : String) : List String :=
  (tokeniseAux s.data []).map lowerString

/-! ### Catalogue data model (`registry.py`) -/

/-- `registry.EpiversePackage`: one catalogue record. -/
structure EpiversePackage where
  name : String
  summary : String
  category : String
  homepage : Option String
  topics : List String
deriving DecidableEq

/-- `EpiverseRegistry.sorted_packages`: the records ordered by name
(the Python source sorts the dictionary's keys lexicographically).  Python's
sort is stable; it is modelled by the stable `List.insertionSort`. -/
def sorted_packages (registry : List EpiversePackage) : List EpiversePackage :=
  List.insertionSort (fun a b => strLe a.name b.name = true) registry

/-- `EpiverseRegistry.has_package`. -/
def has_package (registry : List EpiversePackage) (name : String) : Bool :=
  registry.any (fun p => p.name = name)

/-! ### Relevance router (`router.py`) -/

/-- `router.TASK_KEYWORDS`: the fixed table mapping task phrases to topic
keywords, in declaration order. -/
def TASK_KEYWORDS : List (String × List String) := [
  ("linelist", ["linelist", "case-data", "data-structures", "structured-data"]),
  ("data cleaning", ["data-cleaning", "cleanepi", "data-validation", "standardize"]),
  ("data import", ["data-import", "readepi", "health-information-systems"]),
  ("incubation period", ["epiparameter", "probability-distribution", "epidemiological", "delay"]),
  ("serial interval", ["epiparameter", "probability-distribution", "delay", "transmission"]),
  ("generation time", ["epiparameter", "generation", "transmission", "delay"]),
  ("delay distribution", ["epiparameter", "probability-distribution", "delay"]),
  ("reproduction number", ["reproduction-number", "transmission", "rt", "r0"]),
  ("Rt", ["reproduction-number", "transmission", "real-time-analysis"]),
  ("R0", ["reproduction-number", "transmission", "epidemic-modelling"]),
  ("superspreading", ["superspreading", "transmission", "individual-level"]),
  ("transmission chains", ["transmission-chain", "epichains", "branching-processes"]),
  ("CFR", ["case-fatality-rate", "cfr", "severity", "health-outcomes"]),
  ("case fatality", ["case-fatality-rate", "cfr", "severity", "under-reporting"]),
  ("severity", ["severity", "cfr", "case-fatality-rate", "health-outcomes"]),
  ("IFR", ["infection-fatality", "severity", "under-reporting"]),
  ("incidence", ["incidence", "incidence2", "epidemic-curves", "time-series"]),
  ("epidemic curve", ["incidence", "epidemic-curves", "time-series", "visualization"]),
  ("epidemic model", ["epidemic-modelling", "epidemic-simulations", "compartmental"]),
  ("SIR model", ["epidemic-modelling", "compartmental", "sir", "infectious-disease-dynamics"]),
  ("scenario", ["scenario-analysis", "scenario-modelling", "epidemic-simulations"]),
  ("final size", ["finalsize", "epidemic-modelling", "sir"]),
  ("forecast", ["forecasting", "real-time-analysis", "prediction"]),
  ("vaccine", ["vaccination", "vaccine-effectiveness", "non-pharmaceutical-interventions"]),
  ("vaccine effectiveness", ["vaccine-effectiveness", "vaccineff"]),
  ("NPI", ["non-pharmaceutical-interventions", "interventions"]),
  ("seroprevalence", ["serological-surveys", "serofoi", "antibodies"]),
  ("force of infection", ["serofoi", "force-of-infection", "foi"]),
  ("contact matrix", ["contact-matrices", "contact-matrix", "social-contacts"]),
  ("contact data", ["contact-matrices", "social-contacts"]),
  ("simulate", ["epidemic-simulations", "outbreak-simulator", "simulist"]),
  ("simulation", ["epidemic-simulations", "outbreak-simulator", "simulist"])]

/-- Python `set.add` on the working keyword set, modelled as a duplicate-free
list that preserves first-insertion order. -/
def insertKeyword (acc : List String) (k : String) : List String :=
  if k ∈ acc then acc else acc ++ [k]

/-- Python `set.update` with a keyword list. -/
def insertKeywords (acc : List String) (ks : List String) : List String :=
  ks.foldl insertKeyword acc

/-- The firing condition of one task phrase in `_compute_match_score`
(lines 134-136): `any(t in query_normalized for t in task_normalized.split())`
— note Python `in` is substring containment. -/
def taskFires (query_normalized : String) (task : String) : Bool :=
  (splitWs (normalize task)).any (fun t => isSubstrOf t query_normalized)

/-- The working relevant-keyword set of `_compute_match_score` (lines 132-137):
union the keyword lists of every task phrase that fires on the query. -/
def relevantKeywords (query_normalized : String)
    (task_keywords : List (String × List String)) : List String :=
  task_keywords.foldl
    (fun acc p => if taskFires query_normalized p.1 then insertKeywords acc p.2 else acc)
    []

/-- `router.PackageMatch` (scores are exact: every signal adds a multiple of 0.5). -/
structure PackageMatch where
  package : EpiversePackage
  score : ℚ
  matched_keywords : List String
deriving DecidableEq

/-- `router._compute_match_score`: the additive scoring function.  Signals in
source order: name containment (+3), query terms in summary (+2 each), topic
in the relevant-keyword set (+1.5), query terms as topic substrings (+1 each,
with provenance dedup only), relevant keywords in summary (+0.5 each). -/
def compute_match_score (query : String) (p : EpiversePackage)
    (task_keywords : List (String × List String)) : ℚ × List String :=
  let query_normalized := normalize query
  let query_terms := splitWs query_normalized
  let name_normalized := normalize p.name
  let summary_normalized := normalize p.summary
  let acc1 : ℚ × List String :=
    if isSubstrOf query_normalized name_normalized || isSubstrOf name_normalized query_normalized then
      (3, ["name:" ++ p.name])
    else (0, [])
  let acc2 := query_terms.foldl
    (fun acc term =>
      if 2 < term.length ∧ isSubstrOf term summary_normalized = true then
        (acc.1 + 2, acc.2 ++ ["summary:" ++ term])
      else acc) acc1
  let relevant_keywords := relevantKeywords query_normalized task_keywords
  let acc3 := p.topics.foldl
    (fun acc topic =>
      let topic_normalized := normalize topic
      let accA :=
        if topic_normalized ∈ relevant_keywords ∨ topic ∈ relevant_keywords then
          (acc.1 + 3/2, acc.2 ++ ["topic:" ++ topic])
        else acc
      query_terms.foldl
        (fun accB term =>
          if 2 < term.length ∧ isSubstrOf term topic_normalized = true then
            (accB.1 + 1,
              if ("topic:" ++ topic) ∈ accB.2 then accB.2 else accB.2 ++ ["topic:" ++ topic])
          else accB) accA) acc2
  relevant_keywords.foldl
    (fun acc keyword =>
      if isSubstrOf keyword summary_normalized then
        (acc.1 + 1/2, acc.2 ++ ["keyword:" ++ keyword])
      else acc) acc3

/-- `router.find_relevant_packages`: filter by category, exclude the fixed
non-analytical categories, score, keep scores `≥ min_score`, sort by score
descending (Python's stable sort) and truncate to `top_k`. -/
def find_relevant_packages (query : String) (top_k : Nat) (min_score : ℚ)
    (category_filter : Option String) (registry : List EpiversePackage) :
    List PackageMatch :=
  let scored := (sorted_packages registry).filterMap (fun p =>
    if (match category_filter with
        | some c => decide (c ≠ "") && decide (p.category ≠ c)
        | none => false) then none
    else if p.category = "infrastructure" ∨ p.category = "documentation" ∨
        p.category = "repository" then none
    else
      let sm := compute_match_score query p TASK_KEYWORDS
      if min_score ≤ sm.1 then some (PackageMatch.mk p sm.1 sm.2) else none)
  (List.insertionSort (fun a b => b.score ≤ a.score) scored).take top_k

/-! ### Planner / shortlist engine (`agent.py`) -/

/-- The `goal_counts` dictionary of `_score_overlap`, built by the first loop:
`goal_counts[token] = goal_counts.get(token, 0) + 1` for each goal token.  The
dictionary is modelled as its (total) count function. -/
def buildCounts (tokens : List String) : String → Nat :=
  tokens.foldl (fun m token => fun s => if s = token then m s + 1 else m s) (fun _ => 0)

/-- The second loop of `_score_overlap`: walk the candidate tokens, consuming
one unit of the remaining goal-count budget per matched token. -/
def overlapAux : (String → Nat) → List String → Nat
  | _, [] => 0
  | counts, token :: rest =>
    if 0 < counts token then
      1 + overlapAux (fun s => if s = token then counts s - 1 else counts s) rest
    else overlapAux counts rest

/-- `agent._score_overlap`: `overlap / sqrt(len(goal_tokens) * len(candidate_tokens))`,
with 0.0 when either token list is empty.  The Python float is idealised as a
real number. -/
noncomputable def score_overlap (goal_tokens candidate_tokens : List String) : ℝ :=
  if goal_tokens = [] ∨ candidate_tokens = [] then 0
  else (overlapAux (buildCounts goal_tokens) candidate_tokens : ℝ) /
    Real.sqrt ((goal_tokens.length * candidate_tokens.length : ℕ) : ℝ)

/-- `agent.ShortlistedPackage`; `metadata` holds the snapshot of the record the
source stores as `package.to_dict()`. -/
structure ShortlistedPackage where
  name : String
  score : ℝ
  reason : String
  metadata : EpiversePackage

/-- The metadata token bag of one candidate in `shortlist_packages`:
`_tokenise(" ".join(filter(None, [name, summary, category, " ".join(topics)])))`. -/
def metadataTokens (p : EpiversePackage) : List String :=
  tokenise (String.intercalate " "
    (([p.name, p.summary, p.category, String.intercalate " " p.topics]).filter (fun s => s ≠ "")))

/-- The `reason` string built in `shortlist_packages` from
`sorted(set(goal_tokens).intersection(metadata_tokens))`. -/
def mkReason (goal_tokens metadata_tokens : List String) : String :=
  let matched := List.insertionSort (fun a b => strLe a b = true)
    (goal_tokens.dedup.filter (fun t => t ∈ metadata_tokens))
  if matched = [] then "Related metadata match."
  else "Matched keywords " ++ String.intercalate ", " matched ++ " against package metadata."

/-- `EpiAgent.shortlist_packages`: score every catalogue record by token
overlap with the goal, drop non-positive scores, sort by score descending
(stable) and truncate to `top_k`. -/
noncomputable def shortlist_packages (registry : List EpiversePackage) (goal : String)
    (top_k : Nat) : List ShortlistedPackage :=
  let goal_tokens := tokenise goal
  let ranked := (sorted_packages registry).filterMap (fun p =>
    let metadata_tokens := metadataTokens p
    let score := score_overlap goal_tokens metadata_tokens
    if score ≤ 0 then none
    else some (ShortlistedPackage.mk p.name score (mkReason goal_tokens metadata_tokens) p))
  (List.insertionSort (fun a b => b.score ≤ a.score) ranked).take top_k

/-! ### Adapter value model and planned calls -/

/-- The values that cross the execution-adapter boundary in this embedding:
scalars, a tabular dataset (named columns of string cells), the incidence
result table (day number, count), and the package-list payload. -/
inductive Value where
  | str : String → Value
  | int : Int → Value
  | bool : Bool → Value
  | df : List (String × List String) → Value
  | table : List (Int × Nat) → Value
  | packages : List EpiversePackage → Value
deriving DecidableEq

/-- `agent.PlannedToolCall`. -/
structure PlannedToolCall where
  package : String
  function : String
  description : String
  args : List Value
  kwargs : List (String × Value)
deriving DecidableEq

/-- `agent._PlanRule`. -/
structure PlanRule where
  keywords : List String
  package : String
  function : String
  description : String
deriving DecidableEq

/-- `agent.DEFAULT_PLAN_RULES`, in declaration order. -/
def DEFAULT_PLAN_RULES : List PlanRule := [
  PlanRule.mk ["incidence", "case", "count"] "incidence2" "incidence"
    "Compute incidence curves from linelist data.",
  PlanRule.mk ["reproduction", "rt", "estimate"] "EpiEstim" "estimate_R"
    "Estimate time-varying reproduction numbers.",
  PlanRule.mk ["clean", "linelist", "standardise"] "linelist" "clean_variable_names"
    "Standardise column names in linelist style datasets.",
  PlanRule.mk ["contact", "network", "epicontacts"] "epicontacts" "make_epicontacts"
    "Build an epicontacts object from contact tracing data."]

/-- `EpiAgent.plan`: a rule fires when `set(_tokenise(goal))` intersects its
keyword list; fired rules are emitted in table order. -/
def plan (rules : List PlanRule) (goal : String) : List PlannedToolCall :=
  let goal_tokens := (tokenise goal).dedup
  rules.filterMap (fun rule =>
    if goal_tokens.inter rule.keywords ≠ [] then
      some (PlannedToolCall.mk rule.package rule.function rule.description [] [])
    else none)

/-! ### Calendar dates (model of the pandas day arithmetic used by the
incidence fallback).  A date is its day number relative to 1970-01-01. -/

/-- Day number of a civil date (Gregorian), the standard days-from-civil
computation; `daysFromCivil 1970 1 1 = 0`. -/
def daysFromCivil (y : Int) (m d : Nat) : Int :=
  let yAdj : Int := if m ≤ 2 then y - 1 else y
  let era : Int := yAdj / 400
  let yoe : Int := yAdj - era * 400
  let mp : Int := (Int.ofNat m + 9) % 12
  let doy : Int := (153 * mp + 2) / 5 + Int.ofNat d - 1
  let doe : Int := yoe * 365 + yoe / 4 - yoe / 100 + doy
  era * 146097 + doe - 719468

/-- Leap-year test for `daysInMonth`. -/
def isLeapYear (y : Int) : Bool := (y % 4 = 0 && y % 100 ≠ 0) || y % 400 = 0

/-- Days in a month of the Gregorian calendar. -/
def daysInMonth (y : Int) (m : Nat) : Nat :=
  if m = 2 then (if isLeapYear y then 29 else 28)
  else if m = 4 ∨ m = 6 ∨ m = 9 ∨ m = 11 then 30 else 31

/-- Split a character list at each occurrence of the separator character. -/
def splitOnChar (sep : Char) : List Char → List Char → List String
  | [], cur => [String.mk cur.reverse]
  | c :: rest, cur =>
    if c = sep then String.mk cur.reverse :: splitOnChar sep rest []
    else splitOnChar sep rest (c :: cur)

/-- Numeric value of a digit run. -/
def digitsToNat (cs : List Char) : Nat :=
  cs.foldl (fun n c => 10 * n + (c.toNat - 48)) 0

/-- Models the external date parser (`pandas.to_datetime` with
`errors="coerce"`, day-floored) on ISO `YYYY-MM-DD` cells, the format this
repository's data and tests use: a valid calendar date becomes its day number,
anything else becomes `none` (`NaT`). -/
def parseDate (s : String) : Option Int :=
  match splitOnChar '-' s.data [] with
  | [ys, ms, ds] =>
    if ys ≠ "" ∧ ms ≠ "" ∧ ds ≠ "" ∧ ys.data.all Char.isDigit ∧
        ms.data.all Char.isDigit ∧ ds.data.all Char.isDigit then
      let y : Int := Int.ofNat (digitsToNat ys.data)
      let m : Nat := digitsToNat ms.data
      let d : Nat := digitsToNat ds.data
      if 1 ≤ m ∧ m ≤ 12 ∧ 1 ≤ d ∧ d ≤ daysInMonth y m then some (daysFromCivil y m d)
      else none
    else none
  | _ => none

/-! ### Execution adapter (`r_wrappers.py`) -/

/-- `r_wrappers.ToolResult`: the uniform result envelope. -/
structure ToolResult where
  status : String
  data : Option Value
  message : Option String
  artifact_path : Option String
deriving DecidableEq

/-- `pandas.Series.value_counts().sort_index()` over the parsed day numbers:
the distinct days in ascending order, each with its multiplicity. -/
def valueCounts (dates : List Int) : List (Int × Nat) :=
  (List.insertionSort (fun a b => a ≤ b) dates.dedup).map (fun d => (d, dates.count d))

/-- `pandas.date_range(start, stop, freq=<step>D)` as day numbers. -/
def dateRange (start stop step : Int) : List Int :=
  (List.range (((stop - start) / step).toNat + 1)).map (fun k => start + step * Int.ofNat k)

/-- Minimum of a key list with a default (the head). -/
def keyMin (keys : List Int) (dflt : Int) : Int := keys.foldl min dflt

/-- Maximum of a key list with a default (the head). -/
def keyMax (keys : List Int) (dflt : Int) : Int := keys.foldl max dflt

/-- `counts.resample(f"{interval}D").sum()`: partition the day range into
consecutive `interval`-day bins anchored at the first day, and sum the counts
in each bin (empty bins appear with count 0). -/
def resampleSum (interval : Int) (counts : List (Int × Nat)) : List (Int × Nat) :=
  match counts.map (fun p => p.1) with
  | [] => []
  | k :: ks =>
    let start := keyMin ks k
    let stop := keyMax ks k
    (dateRange start stop interval).map (fun b =>
      (b, ((counts.filter (fun p => b ≤ p.1 ∧ p.1 < b + interval)).map (fun p => p.2)).sum))

/-- `counts.reindex(pd.date_range(start, end, freq), fill_value=0)`: every day
of the range, existing counts kept, missing days filled with 0. -/
def reindexFill (interval : Int) (counts : List (Int × Nat)) : List (Int × Nat) :=
  match counts.map (fun p => p.1) with
  | [] => counts
  | k :: ks =>
    let start := keyMin ks k
    let stop := keyMax ks k
    (dateRange start stop interval).map (fun d =>
      (d, ((counts.find? (fun p => p.1 = d)).map (fun p => p.2)).getD 0))

/-- The keyword arguments `_fallback_incidence` reads, with their Python
defaults (`interval=1`, `fill_dates=True`). -/
structure IncidenceKwargs where
  date_index : Option String
  interval : Int
  fill_dates : Bool
deriving DecidableEq

/-- Column lookup in the modelled dataframe. -/
def lookupColumn (cols : List (String × List String)) (name : String) :
    Option (List String) :=
  (cols.find? (fun c => c.1 = name)).map (fun c => c.2)

/-- `r_wrappers._fallback_incidence` applied to a dataset: parse the named date
column (dropping unparseable cells), count per day, resample to the interval
when it exceeds one, fill date gaps with zeros when `fill_dates` is set, and
return the (date, count) rows.  The three `raise` statements become the three
`Except.error` branches; `if not date_index` is Python falsiness, so a missing
and an empty `date_index` both fail. -/
def fallback_incidence (cols : List (String × List String)) (kw : IncidenceKwargs) :
    Except String (List (Int × Nat)) :=
  if kw.date_index.getD "" = "" then
    Except.error "A 'date_index' keyword argument is required for incidence2::incidence fallbacks"
  else
    match lookupColumn cols (kw.date_index.getD "") with
    | none =>
      Except.error ("Column '" ++ kw.date_index.getD "" ++ "' was not found in the provided dataset")
    | some cells =>
      let dates := cells.filterMap parseDate
      if dates = [] then
        Except.error ("Column '" ++ kw.date_index.getD "" ++ "' does not contain any parseable dates")
      else
        let counts := valueCounts dates
        let interval := max kw.interval 1
        let counts2 := if 1 < interval then resampleSum interval counts else counts
        let counts3 := if kw.fill_dates then reindexFill interval counts2 else counts2
        Except.ok counts3

/-- Keyword lookup in the adapter's `kwargs` mapping. -/
def getKw (kwargs : List (String × Value)) (key : String) : Option Value :=
  (kwargs.find? (fun e => e.1 = key)).map (fun e => e.2)

/-- Reads `date_index`, `interval` and `fill_dates` from the dynamic `kwargs`
mapping with the source's defaults. -/
def decodeIncidenceKwargs (kwargs : List (String × Value)) : IncidenceKwargs :=
  IncidenceKwargs.mk
    (match getKw kwargs "date_index" with | some (Value.str s) => some s | _ => none)
    (match getKw kwargs "interval" with | some (Value.int n) => n | _ => 1)
    (match getKw kwargs "fill_dates" with | some (Value.bool b) => b | _ => true)

/-- The `kwargs` mapping carrying the given incidence options. -/
def encodeIncidenceKwargs (kw : IncidenceKwargs) : List (String × Value) :=
  (match kw.date_index with
    | some s => [("date_index", Value.str s)]
    | none => []) ++
  [("interval", Value.int kw.interval), ("fill_dates", Value.bool kw.fill_dates)]

/-- `_fallback_incidence` as registered in the fallback table: takes the
dynamic argument list (the dataset must be the first argument) and kwargs. -/
def fallback_incidence_value (args : List Value) (kwargs : List (String × Value)) :
    Except String Value :=
  match args with
  | Value.df cols :: _ =>
    (fallback_incidence cols (decodeIncidenceKwargs kwargs)).map Value.table
  | _ => Except.error "incidence2::incidence expects a dataset as the first argument"

/-- One pass of `_normalise_column_name`'s first regex: each maximal run of
non-alphanumeric characters becomes a single underscore (the flag records
whether the previous output was that underscore). -/
def squashAux : Bool → List Char → List Char
  | _, [] => []
  | prevUnd, c :: rest =>
    if c.isAlphanum then c :: squashAux false rest
    else if prevUnd then squashAux true rest
    else '_' :: squashAux true rest

/-- Python `str.strip()` on a character list (used for the leading `.strip()`
and the final `.strip("_")`). -/
def stripChars (p : Char → Bool) (cs : List Char) : List Char :=
  ((cs.dropWhile p).reverse.dropWhile p).reverse

/-- `r_wrappers._normalise_column_name`: strip whitespace, replace runs of
non-alphanumeric characters by one underscore, strip underscores, lower-case. -/
def normalise_column_name (name : String) : String :=
  String.mk
    ((stripChars (fun c => c = '_')
      (squashAux false (stripChars Char.isWhitespace name.data))).map Char.toLower)

/-- `r_wrappers._fallback_clean_variable_names` as registered in the fallback
table: rename every column of the dataset. -/
def fallback_clean_value (args : List Value) (_kwargs : List (String × Value)) :
    Except String Value :=
  match args with
  | Value.df cols :: _ =>
    Except.ok (Value.df (cols.map (fun c => (normalise_column_name c.1, c.2))))
  | _ => Except.error "linelist::clean_variable_names expects a dataset as the first argument"

/-- `r_wrappers.FALLBACK_IMPLEMENTATIONS`: the exact-pair-keyed fallback table. -/
def FALLBACK_IMPLEMENTATIONS :
    List ((String × String) × (List Value → List (String × Value) → Except String Value)) :=
  [(("linelist", "clean_variable_names"), fallback_clean_value),
   (("incidence2", "incidence"), fallback_incidence_value)]

/-- `FALLBACK_IMPLEMENTATIONS.get((package, function))`. -/
def lookupFallback (package function : String) :
    Option (List Value → List (String × Value) → Except String Value) :=
  (FALLBACK_IMPLEMENTATIONS.find? (fun e => e.1 = (package, function))).map (fun e => e.2)

/-- An imported R module: which attributes it exposes, and the effect of
calling one (the call takes `auto_convert`, the positional and the keyword
arguments; an exception is an `Except.error`). -/
structure RModule where
  hasFun : String → Bool
  call : String → Bool → List Value → List (String × Value) → Except String Value

/-- The state of the `rpy2` bridge: absent (`importr is None`), or available
with a package importer that may fail per package. -/
inductive BridgeState where
  | unavailable : BridgeState
  | available : (String → Except String RModule) → BridgeState

/-- The registry hint appended to a success message when the package is not in
the local catalogue. -/
def registryHint : String :=
  "Executed function successfully but the package was not present in the local registry. Consider refreshing the package list."

/-- The `note` assembly at the end of `call_epiverse_function`: start from the
execution message, append the registry hint when the package is unknown, and
fall back to the remembered unavailability reason when a fallback exists. -/
def mkNote (execution_message : Option String) (package_known : Bool)
    (fallback_reason : Option String) (fallback_present : Bool) : Option String :=
  let note := execution_message
  let note2 :=
    if package_known then note
    else match note with
      | some n => some (n ++ "\n" ++ registryHint)
      | none => some registryHint
  if note2 = none ∧ fallback_reason.isSome ∧ fallback_present then fallback_reason else note2

/-- The fallback execution path of `call_epiverse_function` (lines 178-186):
run the registered fallback; its exception becomes `status=error` with a
message naming the fallback, its success carries the execution message. -/
def runFallback (package function : String)
    (fb : List Value → List (String × Value) → Except String Value)
    (args : List Value) (kwargs : List (String × Value))
    (fallback_reason : Option String) (package_known : Bool) : ToolResult :=
  match fb args kwargs with
  | Except.error e =>
    ToolResult.mk "error" none
      (some ("Python fallback for " ++ package ++ "::" ++ function ++ " failed: " ++ e)) none
  | Except.ok v =>
    let em := "Python fallback executed for " ++ package ++ "::" ++ function
    let em2 := match fallback_reason with
      | some r => em ++ " (" ++ r ++ ")"
      | none => em
    ToolResult.mk "success" (some v) (mkNote (some em2) package_known fallback_reason true) none

/-- `r_wrappers.call_epiverse_function`: resolve the package through the
bridge, fall back to the registered local implementation when the bridge, the
package or the function is unavailable, and normalise every outcome into a
`ToolResult`.  The embedding is a total function: no branch raises, which is
the source's catch-all contract. -/
def call_epiverse_function (bridge : BridgeState) (registry : List EpiversePackage)
    (package function : String) (args : List Value) (kwargs : List (String × Value))
    (auto_convert : Bool) : ToolResult :=
  let package_known := has_package registry package
  let fallback := lookupFallback package function
  match bridge with
  | BridgeState.unavailable =>
    let reason := "rpy2 is not installed, so R packages cannot be imported."
    match fallback with
    | none => ToolResult.mk "error" none (some reason) none
    | some fb => runFallback package function fb args kwargs (some reason) package_known
  | BridgeState.available importPackage =>
    match importPackage package with
    | Except.error err =>
      let reason := "Failed to import R package '" ++ package ++ "': " ++ err
      match fallback with
      | none => ToolResult.mk "error" none (some reason) none
      | some fb => runFallback package function fb args kwargs (some reason) package_known
    | Except.ok m =>
      if m.hasFun function then
        match m.call function auto_convert args kwargs with
        | Except.error e => ToolResult.mk "error" none (some e) none
        | Except.ok v =>
          ToolResult.mk "success" (some v) (mkNote none package_known none fallback.isSome) none
      else
        let reason :=
          "Package '" ++ package ++ "' does not expose a callable named '" ++ function ++ "'"
        match fallback with
        | none => ToolResult.mk "error" none (some reason) none
        | some fb => runFallback package function fb args kwargs (some reason) package_known

/-- `r_wrappers.list_epiverse_packages`: with `refresh` the outcome of the
(external) GitHub refresh is surfaced, otherwise the sorted catalogue is
returned; either way the payload is wrapped in a `ToolResult`. -/
def list_epiverse_packages (registry : List EpiversePackage) (refresh : Bool)
    (refreshResult : Except String (List EpiversePackage)) : ToolResult :=
  if refresh then
    match refreshResult with
    | Except.error e => ToolResult.mk "error" none (some e) none
    | Except.ok pkgs => ToolResult.mk "success" (some (Value.packages pkgs)) none none
  else
    ToolResult.mk "success" (some (Value.packages (sorted_packages registry))) none none

/-! ## Helper lemmas -/

theorem mem_insertKeyword {k x : String} {acc : List String} :
    k ∈ insertKeyword acc x ↔ k ∈ acc ∨ k = x := by
  unfold insertKeyword
  split
  · rename_i h
    constructor
    · exact Or.inl
    · rintro (hk | rfl)
      · exact hk
      · exact h
  · simp [List.mem_append]

theorem mem_insertKeywords {k : String} {acc ks : List String} :
    k ∈ insertKeywords acc ks ↔ k ∈ acc ∨ k ∈ ks := by
  induction ks generalizing acc with
  | nil => simp [insertKeywords]
  | cons x xs ih =>
    unfold insertKeywords at ih ⊢
    rw [List.foldl_cons, ih, mem_insertKeyword]
    simp only [List.mem_cons]
    tauto

theorem mem_relevantKeywords_foldl {k : String} {qn : String}
    (table : List (String × List String)) (acc : List String) :
    (k ∈ table.foldl
      (fun acc p => if taskFires qn p.1 then insertKeywords acc p.2 else acc) acc) ↔
    k ∈ acc ∨ ∃ p ∈ table, taskFires qn p.1 = true ∧ k ∈ p.2 := by
  induction table generalizing acc with
  | nil => simp
  | cons hd tl ih =>
    rw [List.foldl_cons]
    by_cases h : taskFires qn hd.1
    · rw [if_pos h, ih, mem_insertKeywords]
      simp only [List.mem_cons]
      constructor
      · rintro ((hk | hk) | ⟨p, hp, hf, hk⟩)
        · exact Or.inl hk
        · exact Or.inr ⟨hd, Or.inl rfl, h, hk⟩
        · exact Or.inr ⟨p, Or.inr hp, hf, hk⟩
      · rintro (hk | ⟨p, (rfl | hp), hf, hk⟩)
        · exact Or.inl (Or.inl hk)
        · exact Or.inl (Or.inr hk)
        · exact Or.inr ⟨p, hp, hf, hk⟩
    · rw [if_neg h, ih]
      simp only [List.mem_cons]
      constructor
      · rintro (hk | ⟨p, hp, hf, hk⟩)
        · exact Or.inl hk
        · exact Or.inr ⟨p, Or.inr hp, hf, hk⟩
      · rintro (hk | ⟨p, (rfl | hp), hf, hk⟩)
        · exact Or.inl hk
        · exact absurd hf (by simp [h])
        · exact Or.inr ⟨p, hp, hf, hk⟩

theorem taskFires_iff {qn task : String} :
    taskFires qn task = true ↔
    ∃ t ∈ splitWs (normalize task), t.data <:+: qn.data := by
  unfold taskFires isSubstrOf
  rw [List.any_eq_true]
  simp only [decide_eq_true_eq]

/-! ## Claim theorems -/

/-- C1, counterexample.  The claim says a task phrase's keywords enter the
relevant-keyword set exactly when some token of the phrase is a *token* of the
normalized query.  The code instead tests substring containment of each phrase
token in the normalized query (`t in query_normalized`, router.py line 136).
For the query "start", the phrase "Rt" (normalized "rt") is a substring of
"start" but not one of its tokens — and no task phrase at all shares a token
with "start" — yet the keyword "reproduction-number" is included. -/
theorem C1_counterexample :
    "reproduction-number" ∈ relevantKeywords (normalize "start") TASK_KEYWORDS ∧
    ¬ ∃ p ∈ TASK_KEYWORDS, "reproduction-number" ∈ p.2 ∧
        ∃ t ∈ splitWs (normalize p.1), t ∈ splitWs (normalize "start") := by
  constructor
  · decide
  · decide

/-- C1, amended.  In the router's scoring, a task phrase's keyword list is
unioned into the relevant-keyword set for a query exactly when some token of
the normalized phrase occurs as a (contiguous) substring of the normalized
query — token-in-string containment, not token-set intersection. -/
theorem C1_relevant_keywords_characterisation :
    ∀ (query k : String),
      k ∈ relevantKeywords (normalize query) TASK_KEYWORDS ↔
      ∃ p ∈ TASK_KEYWORDS, k ∈ p.2 ∧
        ∃ t ∈ splitWs (normalize p.1), t.data <:+: (normalize query).data := by
  intro query k
  unfold relevantKeywords
  rw [mem_relevantKeywords_foldl]
  simp only [List.not_mem_nil, false_or]
  constructor
  · rintro ⟨p, hp, hf, hk⟩
    exact ⟨p, hp, hk, taskFires_iff.mp hf⟩
  · rintro ⟨p, hp, hk, ht⟩
    exact ⟨p, hp, taskFires_iff.mpr ht, hk⟩

/-- C5.  `plan` emits exactly one `PlannedToolCall` for each rule whose keyword
set intersects the goal's token set, in rule-table declaration order: it equals
the table filtered by the firing condition and mapped to calls.  Determinism of
`plan` for a fixed goal and rule table is immediate because the embedding is a
pure function of its arguments. -/
theorem C5_plan_fires_in_table_order :
    ∀ (rules : List PlanRule) (goal : String),
      plan rules goal =
        (rules.filter (fun rule =>
          rule.keywords.any (fun kw => decide (kw ∈ tokenise goal)))).map
          (fun rule => PlannedToolCall.mk rule.package rule.function rule.description [] []) := by
  intro rules goal
  unfold plan
  induction rules with
  | nil => rfl
  | cons r rs ih =>
    rw [List.filterMap_cons, List.filter_cons]
    have hiff : ((tokenise goal).dedup.inter r.keywords ≠ []) ↔
        (r.keywords.any (fun kw => decide (kw ∈ tokenise goal)) = true) := by
      rw [Ne, List.eq_nil_iff_forall_not_mem, List.any_eq_true]
      constructor
      · intro h
        push_neg at h
        obtain ⟨t, ht⟩ := h
        have ht2 : t ∈ (tokenise goal).dedup ∧ t ∈ r.keywords := List.mem_inter_iff.mp ht
        exact ⟨t, ht2.2, by simpa using (List.mem_dedup.mp ht2.1)⟩
      · rintro ⟨kw, hkw, hmem⟩
        intro h
        exact h kw (List.mem_inter_iff.mpr
          ⟨List.mem_dedup.mpr (by simpa using hmem), hkw⟩)
    by_cases h : (tokenise goal).dedup.inter r.keywords ≠ []
    · rw [if_pos h, if_pos (hiff.mp h), List.map_cons]
      exact congrArg _ ih
    · rw [if_neg h, if_neg (fun hb => h (hiff.mpr hb))]
      exact ih

/-- C2.  `call_epiverse_function` is a total function into `ToolResult` (the
embedding of the source's catch-all contract: no branch raises), and when the
bridge runtime is unavailable and no fallback is registered for the
(package, function) pair it returns `status = "error"` with a message. -/
theorem C2_call_function_unavailable_errors :
    ∀ (registry : List EpiversePackage) (package function : String)
      (args : List Value) (kwargs : List (String × Value)) (auto_convert : Bool),
      lookupFallback package function = none →
      (call_epiverse_function BridgeState.unavailable registry package function
          args kwargs auto_convert).status = "error" ∧
      (call_epiverse_function BridgeState.unavailable registry package function
          args kwargs auto_convert).message.isSome := by
  intro registry package function args kwargs auto_convert h
  unfold call_epiverse_function
  rw [h]
  exact ⟨rfl, rfl⟩

/-- C2, witness: the pair ("shinyepi", "run") has no registered fallback, so
with the bridge absent the adapter reports a structured error. -/
theorem C2_witness :
    lookupFallback "shinyepi" "run" = none ∧
    (call_epiverse_function BridgeState.unavailable [] "shinyepi" "run"
        [] [] true).status = "error" ∧
    (call_epiverse_function BridgeState.unavailable [] "shinyepi" "run"
        [] [] true).message.isSome :=
  ⟨rfl, C2_call_function_unavailable_errors [] "shinyepi" "run" [] [] true rfl⟩

/-- C4.  The incidence fallback on a `date_onset` column holding
2020-01-01, 2020-01-01, 2020-01-03 with default options (interval 1, gap
filling on) returns exactly the rows (2020-01-01, 2), (2020-01-02, 0),
(2020-01-03, 1), which are strictly ascending in date and have total count 3. -/
theorem C4_incidence_example :
    fallback_incidence [("date_onset", ["2020-01-01", "2020-01-01", "2020-01-03"])]
        (decodeIncidenceKwargs [("date_index", Value.str "date_onset")]) =
      Except.ok [(daysFromCivil 2020 1 1, 2), (daysFromCivil 2020 1 2, 0),
        (daysFromCivil 2020 1 3, 1)] ∧
    List.Pairwise (fun p q : Int × Nat => p.1 < q.1)
      [(daysFromCivil 2020 1 1, 2), (daysFromCivil 2020 1 2, 0), (daysFromCivil 2020 1 3, 1)] ∧
    ([(daysFromCivil 2020 1 1, 2), (daysFromCivil 2020 1 2, 0),
        (daysFromCivil 2020 1 3, 1)].map (fun p => p.2)).sum = 3 :=
  ⟨rfl, by decide, by decide⟩

/-- The error-shape invariant of a single `ToolResult`: an error result carries
no data and a diagnostic message. -/
def errorShape (t : ToolResult) : Prop :=
  t.status = "error" → t.data = none ∧ t.message.isSome = true

theorem runFallback_errorShape (package function : String)
    (fb : List Value → List (String × Value) → Except String Value)
    (args : List Value) (kwargs : List (String × Value))
    (fallback_reason : Option String) (package_known : Bool) :
    errorShape (runFallback package function fb args kwargs fallback_reason package_known) := by
  unfold runFallback
  cases fb args kwargs with
  | error e => intro _; exact ⟨rfl, rfl⟩
  | ok v => intro h; exact absurd h (show ("success" : String) ≠ "error" from by decide)

/-- C9.  Every `ToolResult` produced by the adapter's public operations
(`call_epiverse_function` under any bridge state, and `list_epiverse_packages`)
satisfies: if `status = "error"` then `data` is absent and a message is set. -/
theorem C9_error_results_have_message :
    ∀ (bridge : BridgeState) (registry : List EpiversePackage) (package function : String)
      (args : List Value) (kwargs : List (String × Value)) (auto_convert : Bool)
      (refresh : Bool) (refreshResult : Except String (List EpiversePackage)),
      errorShape (call_epiverse_function bridge registry package function args kwargs
        auto_convert) ∧
      errorShape (list_epiverse_packages registry refresh refreshResult) := by
  intro bridge registry package function args kwargs auto_convert refresh refreshResult
  constructor
  · unfold call_epiverse_function
    dsimp only
    split
    · split
      · intro _; exact ⟨rfl, rfl⟩
      · exact runFallback_errorShape _ _ _ _ _ _ _
    · split
      · split
        · intro _; exact ⟨rfl, rfl⟩
        · exact runFallback_errorShape _ _ _ _ _ _ _
      · split
        · split
          · intro _; exact ⟨rfl, rfl⟩
          · intro h; exact absurd h (show ("success" : String) ≠ "error" from by decide)
        · split
          · intro _; exact ⟨rfl, rfl⟩
          · exact runFallback_errorShape _ _ _ _ _ _ _
  · unfold list_epiverse_packages
    split
    · split
      · intro _; exact ⟨rfl, rfl⟩
      · intro h; exact absurd h (show ("success" : String) ≠ "error" from by decide)
    · intro h
      exact absurd h (show ("success" : String) ≠ "error" from by decide)

/-- C9, witness: a concrete error from each operation — a call with no bridge
and no fallback, and a listing whose refresh failed. -/
theorem C9_witness :
    ((call_epiverse_function BridgeState.unavailable [] "epinow2" "epinow"
        [] [] true).data = none ∧
      (call_epiverse_function BridgeState.unavailable [] "epinow2" "epinow"
        [] [] true).message.isSome = true) ∧
    ((list_epiverse_packages [] true (Except.error "github unreachable")).data = none ∧
      (list_epiverse_packages [] true (Except.error "github unreachable")).message.isSome = true) :=
  ⟨(C9_error_results_have_message BridgeState.unavailable [] "epinow2" "epinow" [] [] true
      true (Except.error "github unreachable")).1 rfl,
   (C9_error_results_have_message BridgeState.unavailable [] "epinow2" "epinow" [] [] true
      true (Except.error "github unreachable")).2 rfl⟩

theorem decode_encode_kwargs (kw : IncidenceKwargs) :
    decodeIncidenceKwargs (encodeIncidenceKwargs kw) = kw := by
  obtain ⟨di, iv, fd⟩ := kw
  cases di with
  | none => rfl
  | some s => rfl

theorem fallback_incidence_error_iff (cols : List (String × List String))
    (kw : IncidenceKwargs) :
    (∃ e, fallback_incidence cols kw = Except.error e) ↔
      (kw.date_index.getD "" = "" ∨
        lookupColumn cols (kw.date_index.getD "") = none ∨
        ∃ cells, lookupColumn cols (kw.date_index.getD "") = some cells ∧
          cells.filterMap parseDate = []) := by
  unfold fallback_incidence
  by_cases h1 : kw.date_index.getD "" = ""
  · rw [if_pos h1]
    exact ⟨fun _ => Or.inl h1, fun _ => ⟨_, rfl⟩⟩
  · rw [if_neg h1]
    cases h2 : lookupColumn cols (kw.date_index.getD "") with
    | none =>
      exact ⟨fun _ => Or.inr (Or.inl rfl), fun _ => ⟨_, rfl⟩⟩
    | some cells =>
      dsimp only
      by_cases h3 : cells.filterMap parseDate = []
      · rw [if_pos h3]
        exact ⟨fun _ => Or.inr (Or.inr ⟨cells, rfl, h3⟩), fun _ => ⟨_, rfl⟩⟩
      · rw [if_neg h3]
        constructor
        · rintro ⟨e, he⟩
          exact absurd he (by simp)
        · rintro (hc | hc | ⟨cells2, hc, hp⟩)
          · exact absurd hc h1
          · exact absurd hc (by simp)
          · rw [Option.some_inj.mp hc] at h3
            exact absurd hp h3

/-- C8, counterexample.  The claim lists the failure cases as exactly: no
`date_index` keyword given, named column absent, or zero parseable dates.  But
`_fallback_incidence` tests `if not date_index`, Python falsiness, so the
*empty-string* `date_index` also fails — even on a dataset that has a column
named "" full of parseable dates, where none of the claim's three conditions
holds. -/
theorem C8_counterexample :
    fallback_incidence [("", ["2020-01-01"])] (IncidenceKwargs.mk (some "") 1 true) =
      Except.error
        "A 'date_index' keyword argument is required for incidence2::incidence fallbacks" ∧
    (IncidenceKwargs.mk (some "") 1 true).date_index ≠ none ∧
    lookupColumn [("", ["2020-01-01"])] "" = some ["2020-01-01"] ∧
    ["2020-01-01"].filterMap parseDate ≠ [] :=
  ⟨rfl, by decide, rfl, by decide⟩

/-- C8, amended.  The daily-incidence fallback, invoked through the Execution
Adapter on a dataset, is surfaced as a `ToolResult` with `status = "error"` (and
a message) in exactly these cases: the `date_index` keyword argument is missing
*or empty*, the named date column is not a column of the dataset, or the column
yields zero parseable dates. -/
theorem C8_incidence_error_cases :
    ∀ (cols : List (String × List String)) (kw : IncidenceKwargs)
      (registry : List EpiversePackage) (auto_convert : Bool),
      ((call_epiverse_function BridgeState.unavailable registry "incidence2" "incidence"
          [Value.df cols] (encodeIncidenceKwargs kw) auto_convert).status = "error" ↔
        (kw.date_index.getD "" = "" ∨
          lookupColumn cols (kw.date_index.getD "") = none ∨
          ∃ cells, lookupColumn cols (kw.date_index.getD "") = some cells ∧
            cells.filterMap parseDate = [])) ∧
      ((call_epiverse_function BridgeState.unavailable registry "incidence2" "incidence"
          [Value.df cols] (encodeIncidenceKwargs kw) auto_convert).status = "error" →
        (call_epiverse_function BridgeState.unavailable registry "incidence2" "incidence"
          [Value.df cols] (encodeIncidenceKwargs kw) auto_convert).message.isSome = true) := by
  intro cols kw registry auto_convert
  unfold call_epiverse_function
  dsimp only
  rw [show lookupFallback "incidence2" "incidence" = some fallback_incidence_value from rfl]
  dsimp only
  unfold runFallback
  dsimp only [fallback_incidence_value]
  rw [decode_encode_kwargs]
  cases hfe : fallback_incidence cols kw with
  | error e =>
    dsimp only [Except.map]
    exact ⟨⟨fun _ => (fallback_incidence_error_iff cols kw).mp ⟨e, hfe⟩, fun _ => rfl⟩,
      fun _ => rfl⟩
  | ok v =>
    dsimp only [Except.map]
    constructor
    · constructor
      · intro h
        exact absurd h (show ("success" : String) ≠ "error" from by decide)
      · intro hc
        obtain ⟨e, he⟩ := (fallback_incidence_error_iff cols kw).mpr hc
        rw [hfe] at he
        exact absurd he (by simp)
    · intro h
      exact absurd h (show ("success" : String) ≠ "error" from by decide)

/-- C8, witness: with the `date_index` keyword missing, the adapter surfaces a
structured error with a message. -/
theorem C8_witness :
    (call_epiverse_function BridgeState.unavailable [] "incidence2" "incidence"
        [Value.df [("date_onset", ["2020-01-01"])]]
        (encodeIncidenceKwargs (IncidenceKwargs.mk none 1 true)) true).status = "error" ∧
    (call_epiverse_function BridgeState.unavailable [] "incidence2" "incidence"
        [Value.df [("date_onset", ["2020-01-01"])]]
        (encodeIncidenceKwargs (IncidenceKwargs.mk none 1 true)) true).message.isSome = true :=
  have h := C8_incidence_error_cases [("date_onset", ["2020-01-01"])]
    (IncidenceKwargs.mk none 1 true) [] true
  have hs := h.1.mpr (Or.inl rfl)
  ⟨hs, h.2 hs⟩

theorem mem_find_relevant_packages
    {query : String} {top_k : Nat} {min_score : ℚ} {category_filter : Option String}
    {registry : List EpiversePackage} {m : PackageMatch}
    (hm : m ∈ find_relevant_packages query top_k min_score category_filter registry) :
    ∃ p ∈ sorted_packages registry,
      ¬ (p.category = "infrastructure" ∨ p.category = "documentation" ∨
          p.category = "repository") ∧
      m.package = p ∧
      m.score = (compute_match_score query p TASK_KEYWORDS).1 ∧
      min_score ≤ m.score := by
  unfold find_relevant_packages at hm
  dsimp only at hm
  have hm2 := List.Sublist.mem hm (List.take_sublist _ _)
  have hm3 := (List.perm_insertionSort
    (fun a b : PackageMatch => b.score ≤ a.score) _).mem_iff.mp hm2
  obtain ⟨p, hp, hfp⟩ := List.mem_filterMap.mp hm3
  refine ⟨p, hp, ?_⟩
  split at hfp
  · exact absurd hfp (by simp)
  · split at hfp
    · exact absurd hfp (by simp)
    · rename_i hcat
      split at hfp
      · rename_i hsc
        obtain rfl := Option.some_inj.mp hfp
        exact ⟨hcat, rfl, rfl, hsc⟩
      · exact absurd hfp (by simp)

/-- C3.  For every query, registry, `top_k`, `min_score` and category filter,
`find_relevant_packages` returns at most `top_k` matches, in non-increasing
score order, and every returned match scores at least `min_score`. -/
theorem C3_find_relevant_packages_contract :
    ∀ (query : String) (top_k : Nat) (min_score : ℚ) (category_filter : Option String)
      (registry : List EpiversePackage),
      (find_relevant_packages query top_k min_score category_filter registry).length ≤ top_k ∧
      (find_relevant_packages query top_k min_score category_filter registry).Pairwise
        (fun a b => b.score ≤ a.score) ∧
      ∀ m ∈ find_relevant_packages query top_k min_score category_filter registry,
        min_score ≤ m.score := by
  intro query top_k min_score category_filter registry
  refine ⟨?_, ?_, ?_⟩
  · unfold find_relevant_packages
    dsimp only
    rw [List.length_take]
    exact min_le_left _ _
  · haveI : IsTotal PackageMatch (fun a b => b.score ≤ a.score) :=
      ⟨fun a b => le_total b.score a.score⟩
    haveI : IsTrans PackageMatch (fun a b => b.score ≤ a.score) :=
      ⟨fun _ _ _ h1 h2 => le_trans h2 h1⟩
    unfold find_relevant_packages
    dsimp only
    exact List.Pairwise.sublist (List.take_sublist _ _)
      (List.sorted_insertionSort (fun a b : PackageMatch => b.score ≤ a.score) _)
  · intro m hm
    obtain ⟨p, _, _, _, _, hs⟩ := mem_find_relevant_packages hm
    exact hs

/-- The concrete registry record used by the router witnesses. -/
def pkgC : EpiversePackage := EpiversePackage.mk "cfr" "" "r_package" none []

/-- The match the router returns for the query "cfr" on `[pkgC]`. -/
def matchC : PackageMatch := PackageMatch.mk pkgC 3 ["name:cfr"]

/-- C3, witness: the contract instantiated on a one-package registry whose
single returned match (name containment, score 3) meets `min_score = 1`. -/
theorem C3_witness :
    (find_relevant_packages "cfr" 5 1 none [pkgC]).length ≤ 5 ∧
    (find_relevant_packages "cfr" 5 1 none [pkgC]).Pairwise
      (fun a b => b.score ≤ a.score) ∧
    (1 : ℚ) ≤ matchC.score :=
  ⟨(C3_find_relevant_packages_contract "cfr" 5 1 none [pkgC]).1,
   (C3_find_relevant_packages_contract "cfr" 5 1 none [pkgC]).2.1,
   (C3_find_relevant_packages_contract "cfr" 5 1 none [pkgC]).2.2 matchC (by decide)⟩

/-- C7.  No match returned by `find_relevant_packages` refers to a package
whose category is "infrastructure", "documentation" or "repository", whatever
the query and however well the package text matches. -/
theorem C7_category_exclusion :
    ∀ (query : String) (top_k : Nat) (min_score : ℚ) (category_filter : Option String)
      (registry : List EpiversePackage),
      ∀ m ∈ find_relevant_packages query top_k min_score category_filter registry,
        ¬ (m.package.category = "infrastructure" ∨ m.package.category = "documentation" ∨
            m.package.category = "repository") := by
  intro query top_k min_score category_filter registry m hm
  obtain ⟨p, _, hcat, hpkg, _, _⟩ := mem_find_relevant_packages hm
  rw [hpkg]
  exact hcat

/-- C7, witness: instantiated at the concrete returned match of `C3_witness`'s
registry, whose category "r_package" is not excluded. -/
theorem C7_witness :
    ¬ (matchC.package.category = "infrastructure" ∨ matchC.package.category = "documentation" ∨
        matchC.package.category = "repository") :=
  C7_category_exclusion "cfr" 5 1 none [pkgC] matchC (by decide)

theorem buildCounts_apply (tokens : List String) (s : String) :
    buildCounts tokens s = tokens.count s := by
  suffices h : ∀ (ts : List String) (m : String → Nat) (x : String),
      (ts.foldl (fun m token => fun s => if s = token then m s + 1 else m s) m) x =
        m x + ts.count x by
    simpa [buildCounts] using h tokens (fun _ => 0) s
  intro ts
  induction ts with
  | nil => intro m x; simp
  | cons t rest ih =>
    intro m x
    rw [List.foldl_cons, ih]
    by_cases hx : x = t
    · subst hx; simp [List.count_cons]; omega
    · simp [List.count_cons, hx]

theorem overlapAux_count :
    ∀ (cand g : List String),
      overlapAux (fun s => g.count s) cand = (cand.bagInter g).length := by
  intro cand
  induction cand with
  | nil => intro g; simp [overlapAux, List.nil_bagInter]
  | cons t rest ih =>
    intro g
    by_cases h : t ∈ g
    · have hc : 0 < g.count t := List.count_pos_iff.mpr h
      have hfun : (fun s => if s = t then g.count s - 1 else g.count s) =
          (fun s => (g.erase t).count s) := by
        funext s
        by_cases hs : s = t
        · subst hs; rw [if_pos rfl, List.count_erase_self]
        · rw [if_neg hs, List.count_erase_of_ne hs]
      simp only [overlapAux]
      rw [if_pos hc, hfun, ih (g.erase t), List.cons_bagInter_of_pos rest h,
        List.length_cons]
      omega
    · have hc : g.count t = 0 := List.count_eq_zero.mpr h
      simp only [overlapAux]
      rw [if_neg (by omega), ih g, List.cons_bagInter_of_neg rest h]

theorem overlapAux_buildCounts (g cand : List String) :
    overlapAux (buildCounts g) cand = (cand.bagInter g).length := by
  have h : buildCounts g = fun s => g.count s := funext (buildCounts_apply g)
  rw [h, overlapAux_count]

theorem bagInter_length_comm (a b : List String) :
    (a.bagInter b).length = (b.bagInter a).length := by
  have h := congrArg Multiset.card
    (Multiset.inter_comm ((a : Multiset String)) ((b : Multiset String)))
  rw [Multiset.coe_inter, Multiset.coe_inter] at h
  simpa [Multiset.coe_card] using h

theorem bagInter_length_le_left (a b : List String) :
    (a.bagInter b).length ≤ a.length :=
  (List.bagInter_sublist_left a b).length_le

theorem bagInter_length_le_right (a b : List String) :
    (a.bagInter b).length ≤ b.length := by
  rw [bagInter_length_comm]
  exact bagInter_length_le_left b a

theorem score_overlap_eq {g c : List String} (hg : g ≠ []) (hc : c ≠ []) :
    score_overlap g c = ((c.bagInter g).length : ℝ) /
      Real.sqrt ((g.length * c.length : ℕ) : ℝ) := by
  unfold score_overlap
  rw [if_neg (by simp [hg, hc]), overlapAux_buildCounts]

/-- C10.  The shortlist overlap score is symmetric and bounded: the loop of
`_score_overlap` computes the multiset-intersection size of the two token bags,
which is symmetric and never exceeds `sqrt(|a| * |b|)`, so the score lies in
[0, 1] and is invariant under swapping its arguments. -/
theorem C10_score_overlap_symm_bounded :
    ∀ (a b : List String),
      score_overlap a b = score_overlap b a ∧
      0 ≤ score_overlap a b ∧ score_overlap a b ≤ 1 := by
  intro a b
  refine ⟨?_, ?_, ?_⟩
  · by_cases ha : a = []
    · subst ha; simp [score_overlap]
    · by_cases hb : b = []
      · subst hb; simp [score_overlap]
      · rw [score_overlap_eq ha hb, score_overlap_eq hb ha, bagInter_length_comm,
          Nat.mul_comm]
  · unfold score_overlap
    split
    · exact le_refl 0
    · exact div_nonneg (by positivity) (Real.sqrt_nonneg _)
  · by_cases ha : a = []
    · have h0 : score_overlap a b = 0 := by unfold score_overlap; rw [if_pos (Or.inl ha)]
      rw [h0]; norm_num
    · by_cases hb : b = []
      · have h0 : score_overlap a b = 0 := by
          unfold score_overlap; rw [if_pos (Or.inr hb)]
        rw [h0]; norm_num
      · rw [score_overlap_eq ha hb]
        have hk1 : (b.bagInter a).length ≤ b.length := bagInter_length_le_left b a
        have hk2 : (b.bagInter a).length ≤ a.length := bagInter_length_le_right b a
        have hprod : 0 < a.length * b.length :=
          Nat.mul_pos (List.length_pos.mpr ha) (List.length_pos.mpr hb)
        have hsq : 0 < Real.sqrt ((a.length * b.length : ℕ) : ℝ) :=
          Real.sqrt_pos.mpr (by exact_mod_cast hprod)
        rw [div_le_one hsq, Real.le_sqrt (by positivity) (by positivity)]
        have hcast : ((b.bagInter a).length : ℝ) ^ 2 =
            (((b.bagInter a).length * (b.bagInter a).length : ℕ) : ℝ) := by
          push_cast; ring
        rw [hcast]
        exact_mod_cast Nat.mul_le_mul hk2 hk1

theorem mem_shortlist_packages
    {registry : List EpiversePackage} {goal : String} {top_k : Nat}
    {s : ShortlistedPackage}
    (hs : s ∈ shortlist_packages registry goal top_k) :
    ∃ p ∈ sorted_packages registry,
      s = ShortlistedPackage.mk p.name (score_overlap (tokenise goal) (metadataTokens p))
          (mkReason (tokenise goal) (metadataTokens p)) p ∧
      0 < score_overlap (tokenise goal) (metadataTokens p) := by
  unfold shortlist_packages at hs
  dsimp only at hs
  have h2 := List.Sublist.mem hs (List.take_sublist _ _)
  have h3 := (List.perm_insertionSort
    (fun a b : ShortlistedPackage => b.score ≤ a.score) _).mem_iff.mp h2
  obtain ⟨p, hp, hfp⟩ := List.mem_filterMap.mp h3
  split at hfp
  · exact absurd hfp (by simp)
  · rename_i hneg
    obtain rfl := Option.some_inj.mp hfp
    exact ⟨p, hp, rfl, lt_of_not_le hneg⟩

/-- C6.  Every candidate returned by `shortlist_packages` carries the score
`overlap / sqrt(|goalTokens| * |candidateTokens|)` where `overlap` is the
multiset-intersection size of the goal's token bag and the token bag of the
candidate's name, summary, category and topics — and that overlap is never
zero for a returned candidate. -/
theorem C6_shortlist_score :
    ∀ (registry : List EpiversePackage) (goal : String) (top_k : Nat)
      (s : ShortlistedPackage), s ∈ shortlist_packages registry goal top_k →
      s.score = (((metadataTokens s.metadata).bagInter (tokenise goal)).length : ℝ) /
        Real.sqrt (((tokenise goal).length * (metadataTokens s.metadata).length : ℕ) : ℝ) ∧
      0 < ((metadataTokens s.metadata).bagInter (tokenise goal)).length := by
  intro registry goal top_k s hs
  obtain ⟨p, _, rfl, hpos⟩ := mem_shortlist_packages hs
  dsimp only
  have hg : tokenise goal ≠ [] := by
    intro h
    have h0 : score_overlap (tokenise goal) (metadataTokens p) = 0 := by
      unfold score_overlap; rw [if_pos (Or.inl h)]
    rw [h0] at hpos
    exact lt_irrefl 0 hpos
  have hc : metadataTokens p ≠ [] := by
    intro h
    have h0 : score_overlap (tokenise goal) (metadataTokens p) = 0 := by
      unfold score_overlap; rw [if_pos (Or.inr h)]
    rw [h0] at hpos
    exact lt_irrefl 0 hpos
  have heq := score_overlap_eq hg hc
  refine ⟨heq, ?_⟩
  by_contra h0
  push_neg at h0
  have h00 : ((metadataTokens p).bagInter (tokenise goal)).length = 0 := Nat.le_zero.mp h0
  rw [heq, h00] at hpos
  simp at hpos

/-- The concrete catalogue record used by the shortlist witness. -/
def pkgW : EpiversePackage := EpiversePackage.mk "a" "" "b" none []

/-- The shortlist entry produced on `[pkgW]` for the goal "a". -/
noncomputable def sW : ShortlistedPackage :=
  ShortlistedPackage.mk pkgW.name (score_overlap (tokenise "a") (metadataTokens pkgW))
    (mkReason (tokenise "a") (metadataTokens pkgW)) pkgW

theorem scoreW_pos : 0 < score_overlap (tokenise "a") (metadataTokens pkgW) := by
  rw [score_overlap_eq (by decide) (by decide)]
  rw [show ((metadataTokens pkgW).bagInter (tokenise "a")).length = 1 from by decide]
  rw [show (((tokenise "a").length * (metadataTokens pkgW).length : ℕ) : ℝ) = (2 : ℝ) from by
    norm_num [show (tokenise "a").length = 1 from rfl,
      show (metadataTokens pkgW).length = 2 from rfl]]
  positivity

theorem shortlistW_eq : shortlist_packages [pkgW] "a" 5 = [sW] := by
  unfold shortlist_packages
  dsimp only
  rw [show sorted_packages [pkgW] = [pkgW] from rfl, List.filterMap_cons,
    if_neg (not_le.mpr scoreW_pos), List.filterMap_nil]
  rfl

/-- C6, witness: the single shortlist entry on a one-record catalogue carries
the cosine-like score with overlap 1 over tokens `["a"]` and `["a", "b"]`. -/
theorem C6_witness :
    sW.score = (((metadataTokens sW.metadata).bagInter (tokenise "a")).length : ℝ) /
      Real.sqrt (((tokenise "a").length * (metadataTokens sW.metadata).length : ℕ) : ℝ) ∧
    0 < ((metadataTokens sW.metadata).bagInter (tokenise "a")).length :=
  C6_shortlist_score [pkgW] "a" 5 sW
    (by rw [shortlistW_eq]; exact List.mem_singleton_self sW)

end Epiagent
